import Mathlib

/-!
Shallow embedding of `src/network_info.c` (the `system_stats` extension's
network-information collector) and proofs about the claims of the
specification.

Modelling conventions:
* The host environment (PostgreSQL) gives `ereport` its control-flow
  semantics: a report at `ERROR` level performs a non-local exit (longjmp)
  and never returns to the reporting function, while a report at `WARNING`
  level only logs and continues.  The embedding therefore threads an
  `Option ScanError` through the scan: `some e` means an `ERROR`-level
  report fired and aborted the scan at that point.
* `uint64` values are `Nat`, with the C conversion from `long long`
  (the result type of `atoll`) into `uint64` made explicit as reduction
  modulo 2^64 (`int64ToUint64`).
* The file system is a function `String → Option String`: `none` means
  `fopen` fails for that path, `some c` means the file opens and has
  content `c`.  `getline` reading the first line of an empty file returns
  a non-positive size; on non-empty content it returns the first line
  including its terminating newline, which is how `firstLineChars` is
  defined.
* `atoll` is modelled after glibc (`strtoll` in base 10): skip C
  whitespace, optional sign, longest digit prefix, saturating at the
  `long long` bounds; no digits parse as `0`.
* `getifaddrs` results are a list of `IfEntry`; `getnameinfo` on a given
  entry is modelled by the entry's `NameInfoResult` (success carries the
  numeric host string written into `host`; failure carries the
  `gai_strerror` text and leaves `host` untouched).
* Acquisition/release of OS resources is reified as an `Event` trace
  (`fopen` success/failure, `fclose`, `freeifaddrs`).
-/

namespace SystemStats

/-- Severity of an `ereport` call. -/
inductive Severity
  | warningLevel
  | errorLevel
deriving DecidableEq, Repr

/-- One emitted diagnostic (an `ereport` message). -/
structure Diag where
  severity : Severity
  msg : String
deriving DecidableEq, Repr

/-- Resource events performed by the code, in order. -/
inductive Event
  | fopenOk (path : String)
  | fopenFail (path : String)
  | fclose (path : String)
  | freeifaddrsCall
deriving DecidableEq, Repr

/-- The scan-aborting error conditions (each corresponds to an
`ereport(ERROR, ...)` in `ReadNetworkInformations`). -/
inductive ScanError
  | enumerationFailed
  | addressResolutionFailed
deriving DecidableEq, Repr

/-- Address family of a `sockaddr` (`sa_family`). -/
inductive Family
  | inet
  | inet6
  | other
deriving DecidableEq, Repr

/-- Result of `getnameinfo` on one address entry. -/
inductive NameInfoResult
  | ok (host : String)
  | fail (gaiError : String)
deriving DecidableEq, Repr

/-- Address information of one `ifaddrs` entry whose `ifa_addr` is
non-NULL: the address family, and what `getnameinfo` does on it. -/
structure AddrInfo where
  family : Family
  nameinfo : NameInfoResult
deriving DecidableEq, Repr

/-- One entry of the linked list produced by `getifaddrs`:
`ifa_name` and the (possibly NULL) `ifa_addr`. -/
structure IfEntry where
  name : String
  addr : Option AddrInfo
deriving DecidableEq, Repr

/-- The OS environment the scan runs against: the `getifaddrs` result
(`none` models `getifaddrs` returning -1) and the file system visible to
`fopen`. -/
structure Env where
  ifaddrs : Option (List IfEntry)
  fs : String → Option String

/-- C `isspace` for the default locale (the characters `strtoll` skips). -/
def isSpaceC (c : Char) : Bool :=
  c = ' ' || c = '\t' || c = '\n' || c = '\x0b' || c = '\x0c' || c = '\r'

/-- Numeric value of a digit string read in base 10. -/
def digitsVal (cs : List Char) : Nat :=
  cs.foldl (fun a c => a * 10 + (c.toNat - '0'.toNat)) 0

/-- Saturation of a mathematical integer to the `long long` range, as
glibc `strtoll` does on overflow. -/
def satll (v : Int) : Int :=
  if v > 9223372036854775807 then 9223372036854775807
  else if v < -9223372036854775808 then -9223372036854775808
  else v

/-- The C `atoll` on a character list: skip whitespace, optional sign,
longest base-10 digit prefix (no digits give 0), saturating at the
`long long` bounds. -/
def atollChars (cs : List Char) : Int :=
  match cs.dropWhile isSpaceC with
  | [] => 0
  | c :: r =>
    if c = '-' then satll (-(digitsVal (r.takeWhile Char.isDigit) : Int))
    else if c = '+' then satll ((digitsVal (r.takeWhile Char.isDigit) : Int))
    else satll ((digitsVal ((c :: r).takeWhile Char.isDigit) : Int))

/-- First line of a non-empty file as read by `getline`: all characters up
to and including the first newline (the whole content when it has no
newline). -/
def firstLineChars : List Char → List Char
  | [] => []
  | c :: cs => if c = '\n' then ['\n'] else c :: firstLineChars cs

/-- The C conversion of a `long long` value into a `uint64` object:
reduction modulo 2^64. -/
def int64ToUint64 (v : Int) : Nat :=
  (v % (2 ^ 64 : Int)).toNat

/-- The warning diagnostic `ReadFileContent` emits when `fopen` fails,
with the attempted path substituted for the `%s` of the format string. -/
def openFailDiag (path : String) : Diag :=
  ⟨Severity.warningLevel,
    "can not open file " ++ path ++ " for reading network statistics"⟩

/-- Output of one `ReadFileContent` call: the final value of `*data`, the
diagnostics emitted and the resource events performed. -/
structure ReadOut where
  value : Nat
  diags : List Diag
  events : List Event
deriving DecidableEq, Repr

/-- The function `ReadFileContent(file_name, data)` of the source: open
the file (warning and early return on failure, leaving `*data` alone),
read the first line with `getline`, and when the line is non-empty store
`atoll` of it into the `uint64` pointed to by `data`; the stream is closed
on the successful-open path. -/
def ReadFileContent (fs : String → Option String) (file_name : String)
    (data : Nat) : ReadOut :=
  match fs file_name with
  | none => ⟨data, [openFailDiag file_name], [Event.fopenFail file_name]⟩
  | some content =>
    let v := match content.data with
      | [] => data
      | l => int64ToUint64 (atollChars (firstLineChars l))
    ⟨v, [], [Event.fopenOk file_name, Event.fclose file_name]⟩

/-- Path built by `ReadSpeedMbps`. -/
def speedPath (interface : String) : String :=
  "/sys/class/net/" ++ interface ++ "/speed"

/-- Path built by the eight statistics readers. -/
def statPath (interface stat : String) : String :=
  "/sys/class/net/" ++ interface ++ "/statistics/" ++ stat

/-- The function `ReadSpeedMbps` of the source. -/
def ReadSpeedMbps (fs : String → Option String) (interface : String)
    (speed : Nat) : ReadOut :=
  ReadFileContent fs (speedPath interface) speed

/-- The function `ReadReceiveBytes` of the source. -/
def ReadReceiveBytes (fs : String → Option String) (interface : String)
    (rx_bytes : Nat) : ReadOut :=
  ReadFileContent fs (statPath interface "rx_bytes") rx_bytes

/-- The function `ReadTransmitBytes` of the source. -/
def ReadTransmitBytes (fs : String → Option String) (interface : String)
    (tx_bytes : Nat) : ReadOut :=
  ReadFileContent fs (statPath interface "tx_bytes") tx_bytes

/-- The function `ReadReceivePackets` of the source. -/
def ReadReceivePackets (fs : String → Option String) (interface : String)
    (rx_packets : Nat) : ReadOut :=
  ReadFileContent fs (statPath interface "rx_packets") rx_packets

/-- The function `ReadTransmitPackets` of the source. -/
def ReadTransmitPackets (fs : String → Option String) (interface : String)
    (tx_packets : Nat) : ReadOut :=
  ReadFileContent fs (statPath interface "tx_packets") tx_packets

/-- The function `ReadReceiveErrors` of the source. -/
def ReadReceiveErrors (fs : String → Option String) (interface : String)
    (rx_errors : Nat) : ReadOut :=
  ReadFileContent fs (statPath interface "rx_errors") rx_errors

/-- The function `ReadTransmitErrors` of the source. -/
def ReadTransmitErrors (fs : String → Option String) (interface : String)
    (tx_errors : Nat) : ReadOut :=
  ReadFileContent fs (statPath interface "tx_errors") tx_errors

/-- The function `ReadReceiveDropped` of the source. -/
def ReadReceiveDropped (fs : String → Option String) (interface : String)
    (rx_dropped : Nat) : ReadOut :=
  ReadFileContent fs (statPath interface "rx_dropped") rx_dropped

/-- The function `ReadTransmitDropped` of the source. -/
def ReadTransmitDropped (fs : String → Option String) (interface : String)
    (tx_dropped : Nat) : ReadOut :=
  ReadFileContent fs (statPath interface "tx_dropped") tx_dropped

/-- The nine counter kinds of the data model (the spec's `counterKind`
argument of `ReadCounter`). -/
inductive CounterKind
  | speed
  | rxBytes
  | txBytes
  | rxPackets
  | txPackets
  | rxErrors
  | txErrors
  | rxDropped
  | txDropped
deriving DecidableEq, Repr

/-- The backing path of a counter kind for a given interface. -/
def counterPath (interface : String) : CounterKind → String
  | CounterKind.speed => speedPath interface
  | CounterKind.rxBytes => statPath interface "rx_bytes"
  | CounterKind.txBytes => statPath interface "tx_bytes"
  | CounterKind.rxPackets => statPath interface "rx_packets"
  | CounterKind.txPackets => statPath interface "tx_packets"
  | CounterKind.rxErrors => statPath interface "rx_errors"
  | CounterKind.txErrors => statPath interface "tx_errors"
  | CounterKind.rxDropped => statPath interface "rx_dropped"
  | CounterKind.txDropped => statPath interface "tx_dropped"

/-- Dispatch of the spec's `ReadCounter(interfaceName, counterKind)` onto
the nine concrete reader functions of the source. -/
def readCounterKind (fs : String → Option String) (interface : String)
    (k : CounterKind) (d : Nat) : ReadOut :=
  match k with
  | CounterKind.speed => ReadSpeedMbps fs interface d
  | CounterKind.rxBytes => ReadReceiveBytes fs interface d
  | CounterKind.txBytes => ReadTransmitBytes fs interface d
  | CounterKind.rxPackets => ReadReceivePackets fs interface d
  | CounterKind.txPackets => ReadTransmitPackets fs interface d
  | CounterKind.rxErrors => ReadReceiveErrors fs interface d
  | CounterKind.txErrors => ReadTransmitErrors fs interface d
  | CounterKind.rxDropped => ReadReceiveDropped fs interface d
  | CounterKind.txDropped => ReadTransmitDropped fs interface d

/-- One output row put into the tuplestore: the twelve attributes of
`Natts_network_info`, plus the only `nulls` flag the code ever touches
(the one of the IPv4 address attribute; the others stay false). -/
structure NetRecord where
  interface_name : String
  ipv4_address : String
  ipv6_address : String
  ipv4_null : Bool
  speed_mbps : Nat
  tx_bytes : Nat
  tx_packets : Nat
  tx_errors : Nat
  tx_dropped : Nat
  rx_bytes : Nat
  rx_packets : Nat
  rx_errors : Nat
  rx_dropped : Nat
deriving DecidableEq, Repr

/-- The counter attribute of a record addressed by counter kind. -/
def NetRecord.field (r : NetRecord) : CounterKind → Nat
  | CounterKind.speed => r.speed_mbps
  | CounterKind.rxBytes => r.rx_bytes
  | CounterKind.txBytes => r.tx_bytes
  | CounterKind.rxPackets => r.rx_packets
  | CounterKind.txPackets => r.tx_packets
  | CounterKind.rxErrors => r.rx_errors
  | CounterKind.txErrors => r.tx_errors
  | CounterKind.rxDropped => r.rx_dropped
  | CounterKind.txDropped => r.tx_dropped

/-- The local working state of `ReadNetworkInformations`: the string
buffers, the only touched `nulls` flag, and the nine `uint64` counters. -/
structure Scratch where
  interface_name : String
  ipv4_address : String
  ipv6_address : String
  host : String
  ipv4_null : Bool
  speed_mbps : Nat
  tx_bytes : Nat
  tx_packets : Nat
  tx_errors : Nat
  tx_dropped : Nat
  rx_bytes : Nat
  rx_packets : Nat
  rx_errors : Nat
  rx_dropped : Nat
deriving DecidableEq, Repr

/-- The state after the initial `memset` calls and initialisers, before
the loop starts. -/
def initialScratch : Scratch :=
  ⟨"", "", "", "", false, 0, 0, 0, 0, 0, 0, 0, 0, 0⟩

/-- Result of processing one `ifaddrs` entry of the loop body. -/
structure StepOut where
  next : Scratch
  emitted : Option NetRecord
  diags : List Diag
  events : List Event
  err : Option ScanError
deriving DecidableEq, Repr

/-- The body of the `for (ifa = ifaddr; ...)` loop of
`ReadNetworkInformations` on one entry.

Faithful points: entries with `ifa_addr == NULL` are skipped before
`getnameinfo` runs; `getnameinfo` runs on every remaining entry and on
success overwrites `host` (on failure `host` keeps its previous
contents); only the `AF_INET` branch does anything further; inside it a
`getnameinfo` failure raises an `ereport(ERROR, ...)` which aborts the
scan, so the assignment `nulls[Anum_net_ipv4_address] = true` that
follows it in the source is unreachable; `memcpy` of `ifa_name` lands in
a buffer that is all zero bytes at that point, so it amounts to string
assignment; the nine counter readers run in source order, each receiving
the current value of its own `uint64` variable as `*data` — and since no
reader writes any other reader's variable, that current value is the
corresponding field of the state the iteration started with; after
`tuplestore_putvalues` the reset block clears the three string buffers
and the nine counters, but neither `host` nor `nulls`. -/
def processEntry (fs : String → Option String) (s : Scratch)
    (ifa : IfEntry) : StepOut :=
  match ifa.addr with
  | none => ⟨s, none, [], [], none⟩
  | some a =>
    let host1 := match a.nameinfo with
      | NameInfoResult.ok h => h
      | NameInfoResult.fail _ => s.host
    if a.family = Family.inet then
      match a.nameinfo with
      | NameInfoResult.fail e =>
        ⟨⟨s.interface_name, s.ipv4_address, s.ipv6_address, host1,
            s.ipv4_null, s.speed_mbps, s.tx_bytes, s.tx_packets,
            s.tx_errors, s.tx_dropped, s.rx_bytes, s.rx_packets,
            s.rx_errors, s.rx_dropped⟩,
          none,
          [⟨Severity.errorLevel, "getnameinfo() failed: " ++ e⟩], [],
          some ScanError.addressResolutionFailed⟩
      | NameInfoResult.ok _ =>
        let nm := ifa.name
        let o1 := ReadSpeedMbps fs nm s.speed_mbps
        let o2 := ReadReceiveBytes fs nm s.rx_bytes
        let o3 := ReadTransmitBytes fs nm s.tx_bytes
        let o4 := ReadReceivePackets fs nm s.rx_packets
        let o5 := ReadTransmitPackets fs nm s.tx_packets
        let o6 := ReadReceiveErrors fs nm s.rx_errors
        let o7 := ReadTransmitErrors fs nm s.tx_errors
        let o8 := ReadReceiveDropped fs nm s.rx_dropped
        let o9 := ReadTransmitDropped fs nm s.tx_dropped
        let r : NetRecord :=
          ⟨nm, host1, s.ipv6_address, s.ipv4_null, o1.value, o3.value,
            o5.value, o7.value, o9.value, o2.value, o4.value, o6.value,
            o8.value⟩
        ⟨⟨"", "", "", host1, s.ipv4_null, 0, 0, 0, 0, 0, 0, 0, 0, 0⟩,
          some r,
          o1.diags ++ o2.diags ++ o3.diags ++ o4.diags ++ o5.diags ++
            o6.diags ++ o7.diags ++ o8.diags ++ o9.diags,
          o1.events ++ o2.events ++ o3.events ++ o4.events ++ o5.events ++
            o6.events ++ o7.events ++ o8.events ++ o9.events,
          none⟩
    else
      ⟨⟨s.interface_name, s.ipv4_address, s.ipv6_address, host1,
          s.ipv4_null, s.speed_mbps, s.tx_bytes, s.tx_packets,
          s.tx_errors, s.tx_dropped, s.rx_bytes, s.rx_packets,
          s.rx_errors, s.rx_dropped⟩,
        none, [], [], none⟩

/-- Result of a whole scan: the rows put into the tuplestore, the
diagnostics and resource events in order, the aborting error if one
fired, and the final value of the working state. -/
structure ScanResult where
  records : List NetRecord
  diags : List Diag
  events : List Event
  err : Option ScanError
  final : Scratch
deriving Repr

/-- The enumeration loop of `ReadNetworkInformations` over the remaining
entries: on an `ereport(ERROR, ...)` inside an iteration the longjmp
leaves the loop at once (nothing after that iteration runs). -/
def scanLoop (fs : String → Option String) :
    List IfEntry → Scratch → ScanResult
  | [], s => ⟨[], [], [], none, s⟩
  | ifa :: rest, s =>
    let o := processEntry fs s ifa
    match o.err with
    | some e => ⟨[], o.diags, o.events, some e, o.next⟩
    | none =>
      let r := scanLoop fs rest o.next
      ⟨o.emitted.toList ++ r.records, o.diags ++ r.diags,
        o.events ++ r.events, r.err, r.final⟩

/-- The function `ReadNetworkInformations(tupstore, tupdesc)` of the
source: initialise the working state, call `getifaddrs` (an
`ereport(ERROR, ...)` on failure), run the loop, and call `freeifaddrs`
after the loop — which an `ERROR`-level report inside the loop therefore
skips. -/
def ReadNetworkInformations (env : Env) : ScanResult :=
  match env.ifaddrs with
  | none =>
    ⟨[], [⟨Severity.errorLevel, "Failed to get network interface"⟩], [],
      some ScanError.enumerationFailed, initialScratch⟩
  | some entries =>
    let r := scanLoop env.fs entries initialScratch
    match r.err with
    | some _ => r
    | none => { r with events := r.events ++ [Event.freeifaddrsCall] }

/-- The value a counter file contributes when read with default 0. -/
def counterValue (fs : String → Option String) (path : String) : Nat :=
  (ReadFileContent fs path 0).value

/-- The record the loop emits for an entry named `n` whose `getnameinfo`
wrote `h` into `host`, as a function of the entry and the file system
alone. -/
def recordFor (fs : String → Option String) (n h : String) : NetRecord :=
  ⟨n, h, "", false,
    counterValue fs (speedPath n),
    counterValue fs (statPath n "tx_bytes"),
    counterValue fs (statPath n "tx_packets"),
    counterValue fs (statPath n "tx_errors"),
    counterValue fs (statPath n "tx_dropped"),
    counterValue fs (statPath n "rx_bytes"),
    counterValue fs (statPath n "rx_packets"),
    counterValue fs (statPath n "rx_errors"),
    counterValue fs (statPath n "rx_dropped")⟩

/-- The record an entry makes the loop emit, if any: `AF_INET` entries
with a successful conversion emit, every other entry is skipped. -/
def expectedEmit (fs : String → Option String) (e : IfEntry) :
    Option NetRecord :=
  match e.addr with
  | some ⟨Family.inet, NameInfoResult.ok h⟩ => some (recordFor fs e.name h)
  | _ => none

/-- The abort an entry triggers, if any: only an `AF_INET` entry whose
conversion fails aborts. -/
def expectedErr (e : IfEntry) : Option ScanError :=
  match e.addr with
  | some ⟨Family.inet, NameInfoResult.fail _⟩ =>
    some ScanError.addressResolutionFailed
  | _ => none

/-- An entry is IPv4-bearing when its bound address has family
`AF_INET`. -/
def isIPv4Entry (e : IfEntry) : Bool :=
  match e.addr with
  | some a => a.family = Family.inet
  | none => false

/-- The between-iterations invariant of the working state: everything the
reset block clears is clear (the `host` buffer is unconstrained — the
code never resets it). -/
def Inv (s : Scratch) : Prop :=
  s.interface_name = "" ∧ s.ipv4_address = "" ∧ s.ipv6_address = "" ∧
  s.ipv4_null = false ∧ s.speed_mbps = 0 ∧ s.tx_bytes = 0 ∧
  s.tx_packets = 0 ∧ s.tx_errors = 0 ∧ s.tx_dropped = 0 ∧
  s.rx_bytes = 0 ∧ s.rx_packets = 0 ∧ s.rx_errors = 0 ∧ s.rx_dropped = 0

/-- Occurrence count of an event in a trace. -/
def countEv (evs : List Event) (x : Event) : Nat :=
  (evs.filter (fun e => e = x)).length

/-- A file system on which every open fails. -/
def fsAbsent : String → Option String := fun _ => none

/-- The end-to-end scenario file system of the spec: only the receive
bytes counter of eth0 exists and holds 500. -/
def fsScenario : String → Option String :=
  fun p => if p = statPath "eth0" "rx_bytes" then some "500" else none

/-- An enumeration whose only entry is IPv4 with a failing numeric-host
conversion. -/
def envC1 : Env :=
  ⟨some [⟨"eth0", some ⟨Family.inet, NameInfoResult.fail "ai_family not supported"⟩⟩],
    fsAbsent⟩

/-- An enumeration in which the same interface name carries two IPv4
addresses, as getifaddrs reports for an interface with two bound
addresses. -/
def envC2 : Env :=
  ⟨some [⟨"eth0", some ⟨Family.inet, NameInfoResult.ok "10.0.0.1"⟩⟩,
      ⟨"eth0", some ⟨Family.inet, NameInfoResult.ok "10.0.0.2"⟩⟩],
    fsAbsent⟩

/-- A one-entry IPv4 enumeration against the scenario file system. -/
def envC2w : Env :=
  ⟨some [⟨"eth0", some ⟨Family.inet, NameInfoResult.ok "10.0.0.5"⟩⟩],
    fsScenario⟩

/-- An enumeration that triggers the mid-scan hard error. -/
def envC3 : Env :=
  ⟨some [⟨"wlan0", some ⟨Family.inet, NameInfoResult.fail "temporary failure"⟩⟩],
    fsAbsent⟩

/-- A successfully scanning environment for the release-discipline
witness. -/
def envC3w : Env :=
  ⟨some [⟨"eth0", some ⟨Family.inet, NameInfoResult.ok "10.0.0.5"⟩⟩],
    fsScenario⟩

/-- An environment in which getifaddrs itself fails. -/
def envC4 : Env := ⟨none, fsAbsent⟩

/-- A one-entry IPv4 enumeration against the scenario file system, for
the missing-counter witness. -/
def envC5w : Env :=
  ⟨some [⟨"eth0", some ⟨Family.inet, NameInfoResult.ok "10.0.0.5"⟩⟩],
    fsScenario⟩

/-- The entry list of `envC7`: one IPv4-bearing entry whose conversion
fails. -/
def entriesC7 : List IfEntry :=
  [⟨"eth0", some ⟨Family.inet, NameInfoResult.fail "no address"⟩⟩]

/-- An enumeration with one IPv4-bearing entry whose conversion fails. -/
def envC7 : Env := ⟨some entriesC7, fsAbsent⟩

/-- The entry list of `envC7w`: one IPv4 entry and one IPv6-only
entry. -/
def entriesC7w : List IfEntry :=
  [⟨"eth0", some ⟨Family.inet, NameInfoResult.ok "10.0.0.5"⟩⟩,
    ⟨"lo", some ⟨Family.inet6, NameInfoResult.ok "::1"⟩⟩]

/-- An enumeration with one IPv4 entry and one IPv6-only entry. -/
def envC7w : Env := ⟨some entriesC7w, fsAbsent⟩

/-- A one-entry IPv4 enumeration used to inspect the working state left
for the following iteration. -/
def envC8 : Env :=
  ⟨some [⟨"eth0", some ⟨Family.inet, NameInfoResult.ok "10.0.0.5"⟩⟩],
    fsAbsent⟩

/-- The entry used in the per-iteration witnesses. -/
def entryC8w : IfEntry := ⟨"eth0", some ⟨Family.inet, NameInfoResult.ok "10.0.0.5"⟩⟩

theorem countEv_append (a b : List Event) (x : Event) :
    countEv (a ++ b) x = countEv a x + countEv b x := by
  simp [countEv, List.filter_append]

theorem countEv_nil (x : Event) : countEv [] x = 0 := rfl

/-- From the between-iterations invariant, one loop iteration preserves
the invariant, emits exactly the record determined by the entry and the
file system, and aborts exactly on an `AF_INET` entry whose conversion
fails. -/
theorem processEntry_spec (fs : String → Option String) (s : Scratch)
    (e : IfEntry) (h : Inv s) :
    Inv (processEntry fs s e).next ∧
    (processEntry fs s e).emitted = expectedEmit fs e ∧
    (processEntry fs s e).err = expectedErr e := by
  obtain ⟨h1, h2, h3, h4, h5, h6, h7, h8, h9, h10, h11, h12, h13⟩ := h
  rcases e with ⟨nm, addr⟩
  rcases addr with _ | ⟨fam, ni⟩
  · simp [processEntry, expectedEmit, expectedErr, Inv,
      h1, h2, h3, h4, h5, h6, h7, h8, h9, h10, h11, h12, h13]
  · cases fam <;> cases ni <;>
      simp [processEntry, expectedEmit, expectedErr, Inv, recordFor,
        counterValue, ReadSpeedMbps, ReadReceiveBytes, ReadTransmitBytes,
        ReadReceivePackets, ReadTransmitPackets, ReadReceiveErrors,
        ReadTransmitErrors, ReadReceiveDropped, ReadTransmitDropped,
        h1, h2, h3, h4, h5, h6, h7, h8, h9, h10, h11, h12, h13]

/-- When no entry triggers the aborting conversion failure, the loop
puts exactly one record per emitting entry into the tuplestore, in
entry order, finishes without an error, and re-establishes the
invariant. -/
theorem scanLoop_spec (fs : String → Option String) :
    ∀ (entries : List IfEntry) (s : Scratch), Inv s →
      (∀ e ∈ entries, expectedErr e = none) →
      (scanLoop fs entries s).records =
          entries.filterMap (expectedEmit fs) ∧
        (scanLoop fs entries s).err = none ∧
        Inv (scanLoop fs entries s).final
  | [], s, hs, _ => by
    simpa [scanLoop] using hs
  | e :: rest, s, hs, hok => by
    obtain ⟨hinv, hemit, herr⟩ := processEntry_spec fs s e hs
    have hok_e : expectedErr e = none := hok e (List.mem_cons_self e rest)
    have ih := scanLoop_spec fs rest (processEntry fs s e).next hinv
      (fun x hx => hok x (List.mem_cons_of_mem e hx))
    rw [scanLoop]
    rw [herr, hok_e]
    simp only [List.filterMap_cons]
    obtain ⟨ih1, ih2, ih3⟩ := ih
    refine ⟨?_, ih2, ih3⟩
    rw [hemit, ih1]
    cases expectedEmit fs e <;> simp

/-- Every successfully opened counter file is closed by
`ReadFileContent`, whichever branch runs: the open and close events for
any path balance. -/
theorem ReadFileContent_events (fs : String → Option String)
    (p : String) (d : Nat) (q : String) :
    countEv (ReadFileContent fs p d).events (Event.fclose q) =
      countEv (ReadFileContent fs p d).events (Event.fopenOk q) := by
  cases hfs : fs p <;>
    simp [ReadFileContent, hfs, countEv, List.filter] <;>
    by_cases hq : p = q <;> simp [hq]

/-- One loop iteration keeps open and close events balanced. -/
theorem processEntry_events (fs : String → Option String) (s : Scratch)
    (e : IfEntry) (q : String) :
    countEv (processEntry fs s e).events (Event.fclose q) =
      countEv (processEntry fs s e).events (Event.fopenOk q) := by
  rcases e with ⟨nm, addr⟩
  rcases addr with _ | ⟨fam, ni⟩
  · simp [processEntry, countEv]
  · cases fam <;> cases ni <;>
      simp [processEntry, countEv_append, ReadSpeedMbps, ReadReceiveBytes,
        ReadTransmitBytes, ReadReceivePackets, ReadTransmitPackets,
        ReadReceiveErrors, ReadTransmitErrors, ReadReceiveDropped,
        ReadTransmitDropped, ReadFileContent_events, countEv_nil]

/-- The whole loop keeps open and close events balanced, also when an
iteration aborts it. -/
theorem scanLoop_events (fs : String → Option String) :
    ∀ (entries : List IfEntry) (s : Scratch) (q : String),
      countEv (scanLoop fs entries s).events (Event.fclose q) =
        countEv (scanLoop fs entries s).events (Event.fopenOk q)
  | [], s, q => by simp [scanLoop, countEv]
  | e :: rest, s, q => by
    rw [scanLoop]
    cases herr : (processEntry fs s e).err
    · simp only [countEv_append, processEntry_events fs s e q,
        scanLoop_events fs rest (processEntry fs s e).next q]
    · simpa using processEntry_events fs s e q

theorem digit_not_space (c : Char) (h : c.isDigit = true) :
    isSpaceC c = false := by
  cases hc : isSpaceC c
  · rfl
  · exfalso
    simp only [isSpaceC, Bool.or_eq_true, decide_eq_true_eq] at hc
    rcases hc with ((((h1 | h1) | h1) | h1) | h1) | h1 <;> subst h1 <;>
      exact absurd h (by decide)

theorem digit_ne_minus (c : Char) (h : c.isDigit = true) : ¬(c = '-') :=
  fun he => by subst he; exact absurd h (by decide)

theorem digit_ne_plus (c : Char) (h : c.isDigit = true) : ¬(c = '+') :=
  fun he => by subst he; exact absurd h (by decide)

theorem digit_ne_newline (c : Char) (h : c.isDigit = true) :
    ¬(c = '\n') :=
  fun he => by subst he; exact absurd h (by decide)

theorem takeWhile_digits (fl : List Char)
    (hfl : fl.takeWhile Char.isDigit = []) :
    ∀ ds : List Char, (∀ c ∈ ds, c.isDigit = true) →
      (ds ++ fl).takeWhile Char.isDigit = ds
  | [], _ => by simpa using hfl
  | d :: ds, h => by
    have hd : d.isDigit = true := h d (by simp)
    have ih := takeWhile_digits fl hfl ds (fun c hc => h c (by simp [hc]))
    simp [List.takeWhile_cons, hd, ih]

theorem firstLineChars_append (l1 l2 : List Char)
    (h : ∀ c ∈ l1, ¬(c = '\n')) :
    firstLineChars (l1 ++ l2) = l1 ++ firstLineChars l2 := by
  induction l1 with
  | nil => rfl
  | cons c t ih =>
    have hc : ¬(c = '\n') := h c (by simp)
    simp [firstLineChars, hc, ih (fun x hx => h x (by simp [hx]))]

theorem takeWhile_firstLine_nil (fl : List Char)
    (h : fl.takeWhile Char.isDigit = []) :
    (firstLineChars fl).takeWhile Char.isDigit = [] := by
  cases fl with
  | nil => rfl
  | cons c t =>
    have hcd : c.isDigit = false := by
      cases hcd : c.isDigit
      · rfl
      · rw [List.takeWhile_cons, hcd] at h
        simp at h
    by_cases hcn : c = '\n'
    · subst hcn
      simp [firstLineChars, List.takeWhile_cons]
    · simp [firstLineChars, hcn, List.takeWhile_cons, hcd]

/-- On content whose first characters are a non-empty digit string and
whose remainder starts with a non-digit, `atoll` parses exactly that
digit prefix (up to `long long` saturation). -/
theorem atollChars_digits (ds fl : List Char) (hne : ds ≠ [])
    (hds : ∀ c ∈ ds, c.isDigit = true)
    (hfl : fl.takeWhile Char.isDigit = []) :
    atollChars (ds ++ fl) = satll (digitsVal ds) := by
  cases ds with
  | nil => exact absurd rfl hne
  | cons d t =>
    have hd : d.isDigit = true := hds d (by simp)
    have hsp : isSpaceC d = false := digit_not_space d hd
    have hm : ¬(d = '-') := digit_ne_minus d hd
    have hp : ¬(d = '+') := digit_ne_plus d hd
    have ht : ((d :: t) ++ fl).takeWhile Char.isDigit = d :: t :=
      takeWhile_digits fl hfl (d :: t) hds
    simp only [List.cons_append] at ht ⊢
    simp [atollChars, List.dropWhile_cons, hsp, hm, hp, ht]

/-- On a successfully opened, non-empty file, `ReadFileContent` stores
the `uint64` conversion of `atoll` of the first line. -/
theorem ReadFileContent_parse (fs : String → Option String) (p : String)
    (d : Nat) (content : String) (hc : fs p = some content)
    (hne : content.data ≠ []) :
    (ReadFileContent fs p d).value =
      int64ToUint64 (atollChars (firstLineChars content.data)) := by
  unfold ReadFileContent
  rw [hc]
  cases hd : content.data with
  | nil => exact absurd hd hne
  | cons c cs => simp [hd]

theorem Inv_initialScratch : Inv initialScratch :=
  ⟨rfl, rfl, rfl, rfl, rfl, rfl, rfl, rfl, rfl, rfl, rfl, rfl, rfl⟩

/-- On an abort-free entry list, the emitted records are in bijection
with the IPv4-bearing entries: same count, same names, same order. -/
theorem filterMap_emit_shape (fs : String → Option String) :
    ∀ entries : List IfEntry, (∀ e ∈ entries, expectedErr e = none) →
      (entries.filterMap (expectedEmit fs)).length =
          (entries.filter isIPv4Entry).length ∧
        (entries.filterMap (expectedEmit fs)).map NetRecord.interface_name =
          (entries.filter isIPv4Entry).map IfEntry.name
  | [], _ => by simp
  | e :: rest, h2 => by
    have ih := filterMap_emit_shape fs rest
      (fun x hx => h2 x (List.mem_cons_of_mem e hx))
    have he2 := h2 e (List.mem_cons_self e rest)
    rcases e with ⟨nm, addr⟩
    rcases addr with _ | ⟨fam, ni⟩
    · simpa [expectedEmit, isIPv4Entry, List.filterMap_cons] using ih
    · cases fam <;> cases ni
      · simpa [expectedEmit, isIPv4Entry, List.filterMap_cons, recordFor]
          using ih
      · exact absurd he2 (by simp [expectedErr])
      · simpa [expectedEmit, isIPv4Entry, List.filterMap_cons] using ih
      · simpa [expectedEmit, isIPv4Entry, List.filterMap_cons] using ih
      · simpa [expectedEmit, isIPv4Entry, List.filterMap_cons] using ih
      · simpa [expectedEmit, isIPv4Entry, List.filterMap_cons] using ih

/-- C1: the claim says a failed numeric-host conversion only produces an
error-level diagnostic, leaves the address field null, still produces
the interface's other fields and continues the scan.  The code instead
raises the diagnostic at `ERROR` level, which in this host environment
aborts the whole scan; the `nulls[Anum_net_ipv4_address] = true`
statement after it is unreachable.  This theorem evaluates the scan at
the failing input: the error diagnostic is raised and the scan aborts
with `addressResolutionFailed`, emitting no record at all. -/
theorem c1_conversion_failure_aborts_scan :
    (ReadNetworkInformations envC1).err =
        some ScanError.addressResolutionFailed ∧
      (ReadNetworkInformations envC1).records = [] ∧
      (ReadNetworkInformations envC1).diags =
        [⟨Severity.errorLevel,
          "getnameinfo() failed: ai_family not supported"⟩] ∧
      Event.freeifaddrsCall ∉ (ReadNetworkInformations envC1).events := by
  decide

/-- C2 counterexample: an interface whose name carries two IPv4
addresses yields two records with the same interface name, so the
produced sequence does not have at most one record per distinct
IPv4-bearing interface name. -/
theorem c2_counterexample :
    (ReadNetworkInformations envC2).err = none ∧
      (ReadNetworkInformations envC2).records.map NetRecord.interface_name
        = ["eth0", "eth0"] := by
  decide

/-- C2 (amended): the scan produces exactly one record per IPv4-bearing
address entry, in OS enumeration order — an interface name with several
IPv4 address entries appears once per entry, so uniqueness holds per
entry, not per distinct name (shown under the proviso that no entry
triggers the aborting conversion failure). -/
theorem c2_one_record_per_ipv4_entry (env : Env) (entries : List IfEntry)
    (h1 : env.ifaddrs = some entries)
    (h2 : ∀ e ∈ entries, expectedErr e = none) :
    (ReadNetworkInformations env).records =
      entries.filterMap (expectedEmit env.fs) := by
  obtain ⟨e1, e2, _⟩ :=
    scanLoop_spec env.fs entries initialScratch Inv_initialScratch h2
  simp [ReadNetworkInformations, h1, e2, e1]

/-- C2 witness: on a concrete one-entry enumeration the amended claim
evaluates to the one expected record. -/
theorem c2_one_record_per_ipv4_entry_witness :
    (ReadNetworkInformations envC2w).records =
      [recordFor fsScenario "eth0" "10.0.0.5"] := by
  rw [c2_one_record_per_ipv4_entry envC2w
    [⟨"eth0", some ⟨Family.inet, NameInfoResult.ok "10.0.0.5"⟩⟩]
    rfl (by decide)]
  decide

/-- C3 counterexample: when the scan terminates early with the mid-scan
hard error (a failed conversion on an IPv4 entry), `freeifaddrs` is
never reached — the interface list is not released on that exit path,
against the claim that it is released on every exit path. -/
theorem c3_counterexample :
    (ReadNetworkInformations envC3).err =
        some ScanError.addressResolutionFailed ∧
      Event.freeifaddrsCall ∉ (ReadNetworkInformations envC3).events := by
  decide

/-- C3 (amended): the interface list is released whenever iteration
completes without a hard error, and every counter file that was
successfully opened is closed regardless of which branch was taken — but
on early termination from the mid-scan hard error the list is not
released (see the counterexample). -/
theorem c3_release_discipline (env : Env) (p : String) :
    ((ReadNetworkInformations env).err = none →
        Event.freeifaddrsCall ∈ (ReadNetworkInformations env).events) ∧
      countEv (ReadNetworkInformations env).events (Event.fclose p) =
        countEv (ReadNetworkInformations env).events (Event.fopenOk p) := by
  constructor
  · intro h
    rcases henv : env.ifaddrs with _ | entries
    · simp [ReadNetworkInformations, henv] at h
    · simp only [ReadNetworkInformations, henv] at h ⊢
      cases herr : (scanLoop env.fs entries initialScratch).err with
      | some e => simp [herr] at h
      | none => simp [herr]
  · rcases henv : env.ifaddrs with _ | entries
    · simp [ReadNetworkInformations, henv, countEv]
    · simp only [ReadNetworkInformations, henv]
      cases herr : (scanLoop env.fs entries initialScratch).err with
      | some e =>
        simpa [herr] using scanLoop_events env.fs entries initialScratch p
      | none =>
        have hb := scanLoop_events env.fs entries initialScratch p
        simp only [herr, countEv_append]
        rw [hb]
        rfl

/-- C3 witness: on a concrete successful scan the list is released and
the open and close events of a concrete counter path balance. -/
theorem c3_release_discipline_witness :
    Event.freeifaddrsCall ∈ (ReadNetworkInformations envC3w).events ∧
      countEv (ReadNetworkInformations envC3w).events
          (Event.fclose (statPath "eth0" "rx_bytes")) =
        countEv (ReadNetworkInformations envC3w).events
          (Event.fopenOk (statPath "eth0" "rx_bytes")) := by
  have h := c3_release_discipline envC3w (statPath "eth0" "rx_bytes")
  exact ⟨h.1 (by decide), h.2⟩

/-- C4: when the interface enumeration itself fails, the scan signals
exactly `enumerationFailed` (as a hard error), produces no record, and
the only diagnostic is the enumeration failure message. -/
theorem c4_enumeration_failure_hard (env : Env)
    (h : env.ifaddrs = none) :
    (ReadNetworkInformations env).err = some ScanError.enumerationFailed ∧
      (ReadNetworkInformations env).records = [] ∧
      (ReadNetworkInformations env).diags =
        [⟨Severity.errorLevel, "Failed to get network interface"⟩] := by
  simp [ReadNetworkInformations, h]

/-- C4 witness: the theorem evaluated on the concrete failing
environment. -/
theorem c4_enumeration_failure_hard_witness :
    (ReadNetworkInformations envC4).err =
        some ScanError.enumerationFailed ∧
      (ReadNetworkInformations envC4).records = [] ∧
      (ReadNetworkInformations envC4).diags =
        [⟨Severity.errorLevel, "Failed to get network interface"⟩] :=
  c4_enumeration_failure_hard envC4 rfl

/-- C5: for every interface and counter kind whose backing source cannot
be opened, the reader leaves the caller-supplied default in place (so 0
for the scan), emits exactly one warning-level diagnostic whose message
names the attempted path, performs no successful open, and the scan of
such an interface still emits a record whose field for that kind is 0
while every other field equals the value its own source yields. -/
theorem c5_missing_counter_source (fs : String → Option String)
    (env : Env) (i h : String) (k ko : CounterKind) (d : Nat)
    (hk : fs (counterPath i k) = none) (hko : ¬(ko = k))
    (henv : env.ifaddrs =
      some [⟨i, some ⟨Family.inet, NameInfoResult.ok h⟩⟩])
    (hfs : env.fs = fs) :
    (readCounterKind fs i k d).value = d ∧
      (readCounterKind fs i k d).diags =
        [openFailDiag (counterPath i k)] ∧
      (openFailDiag (counterPath i k)).severity = Severity.warningLevel ∧
      (openFailDiag (counterPath i k)).msg =
        "can not open file " ++ counterPath i k ++
          " for reading network statistics" ∧
      (ReadNetworkInformations env).err = none ∧
      (ReadNetworkInformations env).records = [recordFor fs i h] ∧
      (recordFor fs i h).field k = 0 ∧
      (recordFor fs i h).field ko = counterValue fs (counterPath i ko) := by
  have hro : readCounterKind fs i k d =
      ⟨d, [openFailDiag (counterPath i k)],
        [Event.fopenFail (counterPath i k)]⟩ := by
    cases k <;> simp only [counterPath] at hk <;>
      simp [readCounterKind, ReadSpeedMbps, ReadReceiveBytes,
        ReadTransmitBytes, ReadReceivePackets, ReadTransmitPackets,
        ReadReceiveErrors, ReadTransmitErrors, ReadReceiveDropped,
        ReadTransmitDropped, counterPath, ReadFileContent, hk]
  obtain ⟨e1, e2, _⟩ := scanLoop_spec env.fs
    [⟨i, some ⟨Family.inet, NameInfoResult.ok h⟩⟩] initialScratch
    Inv_initialScratch (by intro e he; simp at he; subst he; rfl)
  refine ⟨by rw [hro], by rw [hro], rfl, rfl, ?_, ?_, ?_, ?_⟩
  · simp [ReadNetworkInformations, henv, e2]
  · rw [hfs] at e1 e2
    simp [ReadNetworkInformations, henv, hfs, e2, e1, expectedEmit,
      List.filterMap_cons]
  · cases k <;> simp only [counterPath] at hk <;>
      simp [recordFor, NetRecord.field, counterValue, counterPath,
        ReadFileContent, hk]
  · cases ko <;> rfl

/-- C5 witness: the spec's end-to-end scenario — only the eth0 receive
bytes source exists; the speed source cannot be opened, its field is 0,
and the receive bytes field takes its own source's value. -/
theorem c5_missing_counter_source_witness :
    (readCounterKind fsScenario "eth0" CounterKind.speed 0).value = 0 ∧
      (readCounterKind fsScenario "eth0" CounterKind.speed 0).diags =
        [openFailDiag (counterPath "eth0" CounterKind.speed)] ∧
      (openFailDiag (counterPath "eth0" CounterKind.speed)).severity =
        Severity.warningLevel ∧
      (openFailDiag (counterPath "eth0" CounterKind.speed)).msg =
        "can not open file " ++ counterPath "eth0" CounterKind.speed ++
          " for reading network statistics" ∧
      (ReadNetworkInformations envC5w).err = none ∧
      (ReadNetworkInformations envC5w).records =
        [recordFor fsScenario "eth0" "10.0.0.5"] ∧
      (recordFor fsScenario "eth0" "10.0.0.5").field CounterKind.speed
        = 0 ∧
      (recordFor fsScenario "eth0" "10.0.0.5").field CounterKind.rxBytes
        = counterValue fsScenario
            (counterPath "eth0" CounterKind.rxBytes) :=
  c5_missing_counter_source fsScenario envC5w "eth0" "10.0.0.5"
    CounterKind.speed CounterKind.rxBytes 0 (by decide) (by decide)
    rfl rfl

/-- C6: a counter source that opens successfully has its first line
parsed permissively in base 10: a non-empty digit prefix followed by
non-digit text (such as a newline) yields the value of that prefix, and
entirely non-numeric content such as "abc" yields 0 rather than an
error. -/
theorem c6_permissive_first_line_parse (fs : String → Option String)
    (p1 p2 : String) (content : String) (ds fl : List Char)
    (hc : fs p1 = some content) (hdata : content.data = ds ++ fl)
    (hne : ds ≠ []) (hds : ∀ c ∈ ds, c.isDigit = true)
    (hfl : fl.takeWhile Char.isDigit = [])
    (hsmall : digitsVal ds < 2 ^ 63)
    (habc : fs p2 = some "abc\n") :
    (ReadFileContent fs p1 0).value = digitsVal ds ∧
      (ReadFileContent fs p2 0).value = 0 := by
  constructor
  · have hne2 : content.data ≠ [] := by
      rw [hdata]
      cases ds with
      | nil => exact absurd rfl hne
      | cons a b => simp
    rw [ReadFileContent_parse fs p1 0 content hc hne2, hdata]
    rw [firstLineChars_append ds fl
      (fun c hc2 => digit_ne_newline c (hds c hc2))]
    rw [atollChars_digits ds (firstLineChars fl) hne hds
      (takeWhile_firstLine_nil fl hfl)]
    have h1 : ¬((digitsVal ds : Int) > 9223372036854775807) := by omega
    have h2 : ¬((digitsVal ds : Int) < -9223372036854775808) := by omega
    unfold satll
    rw [if_neg h1, if_neg h2]
    unfold int64ToUint64
    omega
  · rw [ReadFileContent_parse fs p2 0 "abc\n" habc (by decide)]
    decide

/-- C6 witness: a source containing "12345" with newline yields 12345
and a source containing "abc" with newline yields 0. -/
theorem c6_permissive_first_line_parse_witness :
    (ReadFileContent
        (fun p => if p = "a" then some "12345\n" else some "abc\n")
        "a" 0).value = 12345 ∧
      (ReadFileContent
        (fun p => if p = "a" then some "12345\n" else some "abc\n")
        "b" 0).value = 0 := by
  have h := c6_permissive_first_line_parse
    (fun p => if p = "a" then some "12345\n" else some "abc\n")
    "a" "b" "12345\n" ['1', '2', '3', '4', '5'] ['\n']
    (by decide) (by decide) (by decide) (by decide) (by decide)
    (by decide) (by decide)
  exact ⟨by rw [h.1]; decide, h.2⟩

/-- C7 counterexample: an enumeration result with exactly one entry
bound to an IPv4 address for which the conversion fails produces zero
records, not one — the scan aborts instead (see C1), so the claim fails
as stated for such enumeration results. -/
theorem c7_counterexample :
    (entriesC7.filter isIPv4Entry).length = 1 ∧
      envC7.ifaddrs = some entriesC7 ∧
      (ReadNetworkInformations envC7).records = [] ∧
      (ReadNetworkInformations envC7).err ≠ none := by
  decide

/-- C7 (amended): for every enumeration result with N IPv4-bearing
entries, provided each IPv4 entry's conversion succeeds (otherwise the
scan aborts), the produced sequence has exactly N records whose
interface names are those entries' names in the same relative order. -/
theorem c7_one_record_per_ipv4_bearing_entry (env : Env)
    (entries : List IfEntry) (h1 : env.ifaddrs = some entries)
    (h2 : ∀ e ∈ entries, expectedErr e = none) :
    (ReadNetworkInformations env).records.length =
        (entries.filter isIPv4Entry).length ∧
      (ReadNetworkInformations env).records.map NetRecord.interface_name
        = (entries.filter isIPv4Entry).map IfEntry.name := by
  obtain ⟨e1, e2, _⟩ :=
    scanLoop_spec env.fs entries initialScratch Inv_initialScratch h2
  have hrec : (ReadNetworkInformations env).records =
      entries.filterMap (expectedEmit env.fs) := by
    simp [ReadNetworkInformations, h1, e2, e1]
  rw [hrec]
  exact filterMap_emit_shape env.fs entries h2

/-- C7 witness: a two-entry enumeration with one IPv4 entry and one
IPv6-only entry yields exactly one record carrying the IPv4 entry's
name. -/
theorem c7_one_record_per_ipv4_bearing_entry_witness :
    (ReadNetworkInformations envC7w).records.length =
        (entriesC7w.filter isIPv4Entry).length ∧
      (ReadNetworkInformations envC7w).records.map
          NetRecord.interface_name
        = (entriesC7w.filter isIPv4Entry).map IfEntry.name :=
  c7_one_record_per_ipv4_bearing_entry envC7w entriesC7w rfl (by decide)

/-- C8 counterexample: after the scan's only iteration emits its record,
the working state left for the next iteration still holds the
interface's numeric-host string in the address-conversion buffer — the
reset block clears neither `host` nor the null flags, so not all working
scratch state is reset between iterations. -/
theorem c8_counterexample :
    (ReadNetworkInformations envC8).final.host = "10.0.0.5" ∧
      initialScratch.host = "" := by
  decide

/-- C8 (amended): between iterations the name, address and counter
fields are reset (the invariant is re-established), but the
address-conversion buffer is not; nevertheless no value computed for
one interface can appear in the record emitted for a later interface,
because each emitted record is a function of its own entry and the file
system alone. -/
theorem c8_reset_and_no_leak (fs : String → Option String) (s : Scratch)
    (e : IfEntry) (h : Inv s) :
    Inv (processEntry fs s e).next ∧
      (processEntry fs s e).emitted = expectedEmit fs e := by
  obtain ⟨a, b, _⟩ := processEntry_spec fs s e h
  exact ⟨a, b⟩

/-- C8 witness: the amended claim evaluated on a concrete entry from the
freshly initialised state. -/
theorem c8_reset_and_no_leak_witness :
    Inv (processEntry fsAbsent initialScratch entryC8w).next ∧
      (processEntry fsAbsent initialScratch entryC8w).emitted =
        expectedEmit fsAbsent entryC8w :=
  c8_reset_and_no_leak fsAbsent initialScratch entryC8w Inv_initialScratch

/-- C9: whenever the file cannot be opened, or it opens but the
first-line read returns no content, `ReadFileContent` leaves the output
parameter at whatever value the caller supplied. -/
theorem c9_data_preserved_on_failure (fs : String → Option String)
    (p : String) (v : Nat) (h : fs p = none ∨ fs p = some "") :
    (ReadFileContent fs p v).value = v := by
  have hd : ("" : String).data = [] := rfl
  rcases h with h | h <;> simp [ReadFileContent, h, hd]

/-- C9 witness: a prior value of 7 survives both an unopenable file and
an empty file. -/
theorem c9_data_preserved_on_failure_witness :
    (ReadFileContent fsAbsent "/sys/class/net/eth0/speed" 7).value = 7 :=
  c9_data_preserved_on_failure fsAbsent "/sys/class/net/eth0/speed" 7
    (Or.inl rfl)

/-- C10: when the first line of a counter source is a negative base-10
number, the parsed signed value is stored into the unsigned 64-bit
counter modulo 2^64: the emitted field is the huge wrapped value
2^64 minus the magnitude, not 0 and not a negative number. -/
theorem c10_negative_value_wraps (fs : String → Option String)
    (p : String) (content : String) (ds : List Char)
    (hc : fs p = some content)
    (hdata : content.data = '-' :: (ds ++ ['\n']))
    (_hne : ds ≠ []) (hds : ∀ c ∈ ds, c.isDigit = true)
    (hpos : 0 < digitsVal ds) (hbound : digitsVal ds ≤ 2 ^ 63) :
    (ReadFileContent fs p 0).value = 2 ^ 64 - digitsVal ds := by
  have hne2 : content.data ≠ [] := by rw [hdata]; simp
  rw [ReadFileContent_parse fs p 0 content hc hne2, hdata]
  have hnl : ∀ c ∈ ('-' :: ds), ¬(c = '\n') := by
    intro c hcm
    rcases List.mem_cons.mp hcm with h1 | h1
    · subst h1; decide
    · exact digit_ne_newline c (hds c h1)
  have hfl1 : firstLineChars ('-' :: (ds ++ ['\n'])) =
      '-' :: (ds ++ ['\n']) := by
    have h2 := firstLineChars_append ('-' :: ds) ['\n'] hnl
    simpa using h2
  rw [hfl1]
  have hsp : isSpaceC '-' = false := by decide
  have h9 : (ds ++ ['\n']).takeWhile Char.isDigit = ds :=
    takeWhile_digits ['\n'] (by decide) ds hds
  simp only [atollChars, List.dropWhile_cons, hsp, Bool.false_eq_true,
    if_false, reduceIte, h9]
  have h1 : ¬(-(digitsVal ds : Int) > 9223372036854775807) := by omega
  have h2 : ¬(-(digitsVal ds : Int) < -9223372036854775808) := by omega
  unfold satll
  rw [if_neg h1, if_neg h2]
  unfold int64ToUint64
  omega

/-- C10 witness: a source whose first line is "-1", as the Linux speed
file reports for virtual interfaces, yields 2^64 - 1. -/
theorem c10_negative_value_wraps_witness :
    (ReadFileContent (fun _ => some "-1\n")
        "/sys/class/net/veth0/speed" 0).value
      = 18446744073709551615 := by
  have h := c10_negative_value_wraps (fun _ => some "-1\n")
    "/sys/class/net/veth0/speed" "-1\n" ['1']
    (by decide) (by decide) (by decide) (by decide) (by decide)
    (by decide)
  rw [h]
  decide

end SystemStats
